import Mathlib

/-!
Verification of the budget-future income/tax calculator (`salaries.py`).

Monetary values are modelled as rationals (`ℚ`), matching the exact decimal
arithmetic of Python's `Decimal`.  The bracket tables `IRS` and `RETENTION`
live in a configuration module that is not part of the sources here, so they
are abstracted as parameters: a partial map from fiscal year to an ordered
list of (ceiling, rate) pairs, together with its minimum key (the spec's
"retrieval of the minimum year present", realised in the code by
`IRS.keys()[-1]` with years stored in descending order).
-/

namespace BudgetFuture

/-- Rounding of a rational to the nearest integer, ties going to the even
neighbour: Python `Decimal`'s default `ROUND_HALF_EVEN`, which `quantize`
uses. -/
def roundHalfEven (q : ℚ) : ℤ :=
  if 2 * q < 2 * (⌊q⌋ : ℚ) + 1 then ⌊q⌋
  else if 2 * (⌊q⌋ : ℚ) + 1 < 2 * q then ⌊q⌋ + 1
  else if ⌊q⌋ % 2 = 0 then ⌊q⌋ else ⌊q⌋ + 1

/-- `x.quantize(Decimal("0.01"))`: round to two decimal places, half to even. -/
def quantize2 (q : ℚ) : ℚ := (roundHalfEven (100 * q) : ℚ) / 100

/-- The bracket accumulation loop of `irs` (source lines 40–47): walk the
(ceiling, rate) pairs, adding `(ceiling - previous) * rate` while the
per-person salary exceeds the ceiling, otherwise adding
`(salary - previous) * rate` and stopping. -/
def bracketWalk (salary : ℚ) : List (ℚ × ℚ) → ℚ → ℚ
  | [], _ => 0
  | (ceiling, ptax) :: rest, previous =>
    if ceiling < salary then (ceiling - previous) * ptax + bracketWalk salary rest ceiling
    else (salary - previous) * ptax

/-- The year-resolution loop of `irs` (source lines 27–35): use the table
entry for `year` if present, otherwise decrement and retry; give up (the
code raises `IRSNotAvailable`, modelled as `none`) once the decremented year
falls below the table's minimum key.  Modelled from the spec for the missing
`irs.py`: the table is an abstract map from year to bracket list and
`minYear` stands for `IRS.keys()[-1]`, the minimum year present. -/
def resolveYear {α : Type} (tbl : ℤ → Option α) (minYear : ℤ) (year : ℤ) : Option α :=
  match tbl year with
  | some t => some t
  | none => if year - 1 < minYear then none else resolveYear tbl minYear (year - 1)
termination_by (year - minYear).toNat
decreasing_by
  simp only [not_lt] at *
  omega

/-- `irs(salary, num_people)` (source lines 13–50): resolve the year's
brackets, split the salary by the household size, walk the brackets, scale
back up and quantize to two decimals. -/
def irs (tbl : ℤ → Option (List (ℚ × ℚ))) (minYear year : ℤ) (salary : ℚ)
    (numPeople : ℕ) : Option ℚ :=
  (resolveYear tbl minYear year).map fun brackets =>
    quantize2 ((numPeople : ℚ) * bracketWalk (salary / (numPeople : ℚ)) brackets 0)

/-- The `Income` value object (source lines 53–65). -/
structure Income where
  salary : ℚ
  n_months : ℕ
  bonus : List ℚ
  taxfree : ℚ
  n_people : ℕ

/-- Class constant `SS = 4104`, the flat social-security cap per person. -/
def Income.SS : ℚ := 4104

/-- Class constant `ss_tax = Decimal("0.11")`. -/
def Income.ss_tax : ℚ := 11/100

/-- Derived field `self.income = salary * n_months + sum(bonus)`. -/
def Income.income (inc : Income) : ℚ :=
  inc.salary * (inc.n_months : ℚ) + inc.bonus.sum

/-- Derived field `self.ss = self.income * ss_tax`. -/
def Income.ss (inc : Income) : ℚ := inc.income * Income.ss_tax

/-- `gross()` (source lines 67–68): returns `self.income` as constructed. -/
def Income.gross (inc : Income) : ℚ := inc.income

/-- `net()` (source lines 70–77): choose the collectable taxable base by
comparing the flat cap with the proportional contribution, tax it via `irs`,
and return `income - ss - tax + taxfree` quantized. -/
def Income.net (tbl : ℤ → Option (List (ℚ × ℚ))) (minYear year : ℤ)
    (inc : Income) : Option ℚ :=
  let collectable :=
    if Income.SS * (inc.n_people : ℚ) > inc.ss then
      inc.income - Income.SS * (inc.n_people : ℚ)
    else inc.income - inc.ss
  (irs tbl minYear year collectable inc.n_people).map fun tax =>
    quantize2 (inc.income - inc.ss - tax + inc.taxfree)

/-- `netsalary()` (source lines 79–84): return the salary net of the
contribution rate and the rate of the first withholding bracket whose
ceiling strictly exceeds the salary; `none` (Python falls off the loop and
returns `None`) if no ceiling does.  `retention` stands for the resolved
list `RETENTION[self.year]` from the missing `irs.py`. -/
def Income.netsalary (retention : List (ℚ × ℚ)) (inc : Income) : Option ℚ :=
  match retention with
  | [] => none
  | (ceiling, ptax) :: rest =>
    if inc.salary < ceiling then
      some (quantize2 (inc.salary * (1 - Income.ss_tax - ptax)))
    else Income.netsalary rest inc

/-- `netbonus()` (source lines 86–92): the nested list comprehension yields,
for each bonus in order, one entry per withholding bracket whose ceiling
strictly exceeds that bonus. -/
def Income.netbonus (retention : List (ℚ × ℚ)) (inc : Income) : List ℚ :=
  inc.bonus.flatMap fun bonus =>
    (retention.filter fun p => bonus < p.1).map fun p =>
      quantize2 (bonus * (1 - Income.ss_tax - p.2))

/-- Pointwise ternary zip, matching Python's `zip(income, expenses, invested)`. -/
def zipWith3 {α β γ δ : Type} (f : α → β → γ → δ) :
    List α → List β → List γ → List δ
  | a :: as, b :: bs, c :: cs => f a b c :: zipWith3 f as bs cs
  | _, _, _ => []

/-- The accumulation loop of `Graph.__init__` (source lines 104–108) run from
a given seed: each step adds the next net value and records the total. -/
def accumFrom (accum : ℚ) : List ℚ → List ℚ
  | [] => []
  | x :: xs => (accum + x) :: accumFrom (accum + x) xs

/-- `net = [i - e - c for i, e, c in zip(income, expenses, invested)]`. -/
def graphNet (income expenses invested : List ℚ) : List ℚ :=
  zipWith3 (fun i e c => i - e - c) income expenses invested

/-- `self.accum`: the loop is seeded with `net[0]` and then adds every
`net[i]` including `net[0]` again. -/
def graphAccum (income expenses invested : List ℚ) : List ℚ :=
  accumFrom (graphNet income expenses invested).headI
    (graphNet income expenses invested)

/-- `self.expenses = [-e for e in expenses]`. -/
def graphExpenses (expenses : List ℚ) : List ℚ := expenses.map (fun e => -e)

/-- Well-formedness of a bracket list relative to the previous ceiling:
ceilings ascending from `previous` and rates non-negative. -/
def wfBrackets : ℚ → List (ℚ × ℚ) → Prop
  | _, [] => True
  | previous, (ceiling, ptax) :: rest =>
    previous ≤ ceiling ∧ 0 ≤ ptax ∧ wfBrackets ceiling rest

/-- A synthetic one-bracket `IRS` table for the single year 2024, used to
instantiate the abstract configuration in concrete evaluations. -/
def irsTable2024 : ℤ → Option (List (ℚ × ℚ)) :=
  fun y => if y = 2024 then some [(7112, 29/200)] else none

/-- A synthetic `IRS` table whose single bracket has ceiling 1 and rate 10%. -/
def irsTableSmall : ℤ → Option (List (ℚ × ℚ)) :=
  fun y => if y = 2024 then some [(1, 1/10)] else none

/-- A synthetic two-bracket withholding table. -/
def retentionPair : List (ℚ × ℚ) := [(1000, 1/10), (2000, 1/5)]

/-- An income with a single 500 bonus. -/
def bonusIncome : Income := ⟨0, 12, [500], 0, 1⟩

/-- An income whose monthly salary has three decimal places. -/
def smallSalaryIncome : Income := ⟨1/1000, 12, [], 0, 1⟩

/-- A one-person income of 4103.99 paid in a single month, just below the
4104 social-security flat cap. -/
def lowIncome : Income := ⟨410399/100, 1, [], 0, 1⟩

/-! ### Properties of half-even rounding and quantization -/

theorem roundHalfEven_ge_floor (q : ℚ) : ⌊q⌋ ≤ roundHalfEven q := by
  unfold roundHalfEven
  split_ifs <;> omega

theorem roundHalfEven_le_floor_add_one (q : ℚ) : roundHalfEven q ≤ ⌊q⌋ + 1 := by
  unfold roundHalfEven
  split_ifs <;> omega

theorem roundHalfEven_mono {a b : ℚ} (h : a ≤ b) :
    roundHalfEven a ≤ roundHalfEven b := by
  rcases lt_or_eq_of_le (Int.floor_mono h : ⌊a⌋ ≤ ⌊b⌋) with hf | hf
  · calc roundHalfEven a ≤ ⌊a⌋ + 1 := roundHalfEven_le_floor_add_one a
      _ ≤ ⌊b⌋ := by omega
      _ ≤ roundHalfEven b := roundHalfEven_ge_floor b
  · unfold roundHalfEven
    rw [hf]
    split_ifs <;> first | omega | linarith

theorem quantize2_mono {a b : ℚ} (h : a ≤ b) : quantize2 a ≤ quantize2 b := by
  unfold quantize2
  have h1 : roundHalfEven (100 * a) ≤ roundHalfEven (100 * b) :=
    roundHalfEven_mono (by linarith)
  have h2 : (roundHalfEven (100 * a) : ℚ) ≤ (roundHalfEven (100 * b) : ℚ) := by
    exact_mod_cast h1
  linarith

theorem quantize2_zero : quantize2 0 = 0 := by
  norm_num [quantize2, roundHalfEven]

theorem quantize2_nonneg {a : ℚ} (h : 0 ≤ a) : 0 ≤ quantize2 a := by
  have := quantize2_mono h
  rwa [quantize2_zero] at this

theorem quantize2_nonpos {a : ℚ} (h : a ≤ 0) : quantize2 a ≤ 0 := by
  have := quantize2_mono h
  rwa [quantize2_zero] at this

/-! ### Properties of the bracket walk -/

theorem bracketWalk_nonneg :
    ∀ (l : List (ℚ × ℚ)) (previous s : ℚ), wfBrackets previous l → previous ≤ s →
      0 ≤ bracketWalk s l previous
  | [], _, _, _, _ => le_refl 0
  | (c, r) :: rest, previous, s, hwf, hps => by
    obtain ⟨hpc, hr, hrest⟩ := hwf
    unfold bracketWalk
    split_ifs with hcs
    · have h1 : 0 ≤ (c - previous) * r := mul_nonneg (by linarith) hr
      have h2 := bracketWalk_nonneg rest c s hrest (le_of_lt hcs)
      linarith
    · exact mul_nonneg (by linarith) hr

theorem bracketWalk_mono :
    ∀ (l : List (ℚ × ℚ)) (previous s1 s2 : ℚ), wfBrackets previous l →
      previous ≤ s1 → s1 ≤ s2 →
      bracketWalk s1 l previous ≤ bracketWalk s2 l previous
  | [], _, _, _, _, _, _ => le_refl 0
  | (c, r) :: rest, previous, s1, s2, hwf, hp1, h12 => by
    obtain ⟨hpc, hr, hrest⟩ := hwf
    unfold bracketWalk
    rcases le_or_lt s1 c with h1 | h1 <;> rcases le_or_lt s2 c with h2 | h2
    · rw [if_neg (not_lt.mpr h1), if_neg (not_lt.mpr h2)]
      exact mul_le_mul_of_nonneg_right (by linarith) hr
    · rw [if_neg (not_lt.mpr h1), if_pos h2]
      have hw := bracketWalk_nonneg rest c s2 hrest (le_of_lt h2)
      have hm : (s1 - previous) * r ≤ (c - previous) * r :=
        mul_le_mul_of_nonneg_right (by linarith) hr
      linarith
    · exact absurd (lt_of_lt_of_le h1 h12) (not_lt.mpr h2)
    · rw [if_pos h1, if_pos h2]
      have := bracketWalk_mono rest c s1 s2 hrest (le_of_lt h1) h12
      linarith

/-! ### Properties of the year-resolution loop -/

theorem resolveYear_none_aux {α : Type} (tbl : ℤ → Option α) (minYear : ℤ) :
    ∀ (fuel : ℕ) (year : ℤ), (year - minYear).toNat ≤ fuel →
      (∀ z : ℤ, z ≤ year → tbl z = none) →
      resolveYear tbl minYear year = none := by
  intro fuel
  induction fuel with
  | zero =>
    intro year hf hz
    rw [resolveYear, hz year le_rfl]
    simp only
    rw [if_pos (by omega)]
  | succ n ih =>
    intro year hf hz
    rw [resolveYear, hz year le_rfl]
    simp only
    split_ifs with h
    · rfl
    · exact ih (year - 1) (by omega) (fun z hz' => hz z (by omega))

theorem resolveYear_some_aux {α : Type} (tbl : ℤ → Option α) (minYear : ℤ) :
    ∀ (fuel : ℕ) (year ystar : ℤ) (t : α), (year - ystar).toNat ≤ fuel →
      minYear ≤ ystar → ystar ≤ year → tbl ystar = some t →
      (∀ z : ℤ, ystar < z → z ≤ year → tbl z = none) →
      resolveYear tbl minYear year = some t := by
  intro fuel
  induction fuel with
  | zero =>
    intro year ystar t hf hmin hle hsome _
    have heq : year = ystar := by omega
    subst heq
    rw [resolveYear, hsome]
  | succ n ih =>
    intro year ystar t hf hmin hle hsome habove
    rcases eq_or_lt_of_le hle with heq | hlt
    · subst heq
      rw [resolveYear, hsome]
    · rw [resolveYear, habove year hlt le_rfl]
      simp only
      rw [if_neg (by omega)]
      exact ih (year - 1) ystar t (by omega) hmin (by omega) hsome
        (fun z h1 h2 => habove z h1 (by omega))

/-! ### List helpers for the chart accumulator -/

theorem zipWith3_length {α β γ δ : Type} (f : α → β → γ → δ) :
    ∀ (as : List α) (bs : List β) (cs : List γ),
      as.length = bs.length → bs.length = cs.length →
      (zipWith3 f as bs cs).length = as.length
  | [], [], [], _, _ => rfl
  | [], _, _, hab, _ => by simp at hab; simp [zipWith3, hab]
  | _ :: _, [], _, hab, _ => by simp at hab
  | _ :: _, _ :: _, [], _, hbc => by simp at hbc
  | a :: as, b :: bs, c :: cs, hab, hbc => by
    simp only [zipWith3, List.length_cons]
    rw [zipWith3_length f as bs cs (by simpa using hab) (by simpa using hbc)]

theorem accumFrom_getElem :
    ∀ (l : List ℚ) (seed : ℚ) (k : ℕ), k < l.length →
      (accumFrom seed l)[k]? = some (seed + (l.take (k + 1)).sum)
  | [], _, k, h => absurd h (by simp)
  | x :: xs, seed, 0, _ => by
    simp [accumFrom]
  | x :: xs, seed, k + 1, h => by
    rw [accumFrom]
    rw [List.getElem?_cons_succ]
    rw [accumFrom_getElem xs (seed + x) k (by simpa using h)]
    simp [add_assoc]

/-! ### Claim theorems -/

/-- Claim C1: `irs` divides the income by the household size, walks the
bracket sequence in ascending ceiling order accumulating
`(ceiling - previous) * rate` for every bracket whose ceiling the per-person
income exceeds and otherwise adding `(income - previous) * rate` and
stopping, then multiplies by the household size and rounds to 2 decimals;
in particular a per-person income exactly equal to the first ceiling `c1`
stops at the first bracket and yields per-person tax `c1 * r1`. -/
theorem irs_bracket_walk (tbl : ℤ → Option (List (ℚ × ℚ))) (minYear year : ℤ)
    (brackets : List (ℚ × ℚ))
    (hres : resolveYear tbl minYear year = some brackets)
    (salary : ℚ) (numPeople : ℕ) :
    irs tbl minYear year salary numPeople =
      some (quantize2 ((numPeople : ℚ) *
        bracketWalk (salary / (numPeople : ℚ)) brackets 0)) ∧
    (∀ (s previous c r : ℚ) (rest : List (ℚ × ℚ)),
        bracketWalk s ((c, r) :: rest) previous =
          if c < s then (c - previous) * r + bracketWalk s rest c
          else (s - previous) * r) ∧
    (∀ (c1 r1 : ℚ) (rest : List (ℚ × ℚ)), brackets = (c1, r1) :: rest →
        salary / (numPeople : ℚ) = c1 →
        irs tbl minYear year salary numPeople =
          some (quantize2 ((numPeople : ℚ) * (c1 * r1)))) := by
  refine ⟨by simp [irs, hres], fun s previous c r rest => rfl, ?_⟩
  rintro c1 r1 rest rfl hc1
  simp only [irs, hres, Option.map_some', Option.some.injEq, hc1]
  rw [bracketWalk, if_neg (lt_irrefl c1)]
  ring_nf

theorem irs_bracket_walk_witness :
    irs irsTable2024 2024 2024 7112 1 = some (25781/25) := by
  have h := (irs_bracket_walk irsTable2024 2024 2024 [(7112, 29/200)]
      (by simp [resolveYear, irsTable2024]) 7112 1).2.2 7112 (29/200) [] rfl
      (by norm_num)
  rw [h]
  norm_num [quantize2, roundHalfEven]

/-- Claim C2: `net()` compares the flat cap `4104 * n_people` with the
contribution `income * 0.11`; if the cap exceeds the contribution the
taxable base is `income - 4104 * n_people`, otherwise `income - contribution`;
it then taxes that base via `irs` with the household size and returns
`income - contribution - tax + taxfree` rounded to 2 decimal places. -/
theorem net_formula (tbl : ℤ → Option (List (ℚ × ℚ))) (minYear year : ℤ)
    (inc : Income) :
    Income.net tbl minYear year inc =
      (irs tbl minYear year
          (if (4104 : ℚ) * (inc.n_people : ℚ) > inc.income * (11/100) then
            inc.income - 4104 * (inc.n_people : ℚ)
          else inc.income - inc.income * (11/100))
          inc.n_people).map
        fun tax => quantize2 (inc.income - inc.income * (11/100) - tax + inc.taxfree) :=
  rfl

/-- Claim C3: contrary to one-output-per-bonus, the nested comprehension in
`netbonus()` yields one output per (bonus, bracket) pair with
`bonus < ceiling`: a single 500 bonus against a two-bracket table produces
two entries, one at each bracket's rate. -/
theorem netbonus_per_bracket :
    Income.netbonus retentionPair bonusIncome = [395, 345] ∧
    bonusIncome.bonus.length = 1 ∧
    (Income.netbonus retentionPair bonusIncome).length = 2 := by
  refine ⟨?_, rfl, ?_⟩ <;>
    norm_num [Income.netbonus, retentionPair, bonusIncome, Income.ss_tax,
      quantize2, roundHalfEven]

/-- Claim C6: `netsalary()` returns the salary taxed at the rate of the
first withholding bracket whose ceiling strictly exceeds the salary (so a
salary exactly at a ceiling falls through to the next bracket), as the
first match of the strict-inequality predicate over the bracket list. -/
theorem netsalary_first_bracket (retention : List (ℚ × ℚ)) (inc : Income) :
    Income.netsalary retention inc =
      (retention.find? fun p => inc.salary < p.1).map
        fun p => quantize2 (inc.salary * (1 - 11/100 - p.2)) := by
  induction retention with
  | nil => rfl
  | cons head rest ih =>
    obtain ⟨c, r⟩ := head
    rw [Income.netsalary]
    by_cases h : inc.salary < c
    · simp [List.find?_cons, h, Income.ss_tax]
    · simp [List.find?_cons, h, Income.ss_tax, ih]

/-- Claim C7 counterexample: for a salary of 0.001 over 12 months, `gross()`
returns 0.012 unrounded, which differs from the 2-decimal rounding 0.01:
`gross()` performs no rounding. -/
theorem gross_not_rounded_counterexample :
    Income.gross smallSalaryIncome = 3/250 ∧
    quantize2 (smallSalaryIncome.salary * (smallSalaryIncome.n_months : ℚ) +
      smallSalaryIncome.bonus.sum) = 1/100 ∧
    Income.gross smallSalaryIncome ≠ 1/100 := by
  refine ⟨?_, ?_, ?_⟩ <;>
    norm_num [Income.gross, Income.income, smallSalaryIncome, quantize2,
      roundHalfEven]

/-- Claim C7 (amended): `gross()` returns `salary * months + sum(bonuses)`
exactly, with no rounding applied; on the example instance with salary 2000,
12 months and bonuses [1000, 1000] it equals 26000. -/
theorem gross_exact (inc : Income) :
    Income.gross inc = inc.salary * (inc.n_months : ℚ) + inc.bonus.sum ∧
    Income.gross ⟨2000, 12, [1000, 1000], 0, 1⟩ = 26000 :=
  ⟨rfl, by norm_num [Income.gross, Income.income]⟩

/-- Claim C4: when the current year is absent from the bracket table the
lookup decrements the year and retries, using the most recent year present
that is at most the current year; if the year falls below the table's
minimum key before any present year is found, `irs` fails with
`IRSNotAvailable` (modelled as `none`) rather than returning a value. -/
theorem resolveYear_fallback (tbl : ℤ → Option (List (ℚ × ℚ))) (minYear year : ℤ)
    (hmin : ∀ z : ℤ, z < minYear → tbl z = none) :
    ((∀ z : ℤ, minYear ≤ z → z ≤ year → tbl z = none) →
      resolveYear tbl minYear year = none ∧
      ∀ (salary : ℚ) (numPeople : ℕ),
        irs tbl minYear year salary numPeople = none) ∧
    (∀ (ystar : ℤ) (brackets : List (ℚ × ℚ)), minYear ≤ ystar → ystar ≤ year →
      tbl ystar = some brackets →
      (∀ z : ℤ, ystar < z → z ≤ year → tbl z = none) →
      resolveYear tbl minYear year = some brackets) := by
  constructor
  · intro habs
    have hz : ∀ z : ℤ, z ≤ year → tbl z = none := by
      intro z hzy
      rcases lt_or_le z minYear with h | h
      · exact hmin z h
      · exact habs z h hzy
    have hnone :=
      resolveYear_none_aux tbl minYear (year - minYear).toNat year le_rfl hz
    exact ⟨hnone, fun salary numPeople => by simp [irs, hnone]⟩
  · intro ystar brackets h1 h2 h3 h4
    exact resolveYear_some_aux tbl minYear (year - ystar).toNat year ystar
      brackets le_rfl h1 h2 h3 h4

theorem resolveYear_fallback_witness :
    irs irsTable2024 2024 2023 100 1 = none :=
  ((resolveYear_fallback irsTable2024 2024 2023
      (fun z hz => by simp only [irsTable2024, ite_eq_right_iff]; omega)).1
    (fun z h1 h2 => absurd (le_trans h1 h2) (by norm_num))).2 100 1

/-- Claim C5 counterexample: a negative taxable income is taxed at the first
bracket's rate, so `irs` returns a strictly negative amount: the
unconditional `computeTax(I, N) ≥ 0` fails at I = -100, N = 1. -/
theorem irs_negative_counterexample :
    irs irsTable2024 2024 2024 (-100) 1 = some (-29/2) ∧ ¬(0 : ℚ) ≤ -29/2 := by
  constructor
  · norm_num [irs, resolveYear, irsTable2024, bracketWalk, quantize2,
      roundHalfEven]
  · norm_num

/-- Claim C5 (amended): for a well-formed resolved bracket table (ascending
non-negative ceilings, non-negative rates) and household size N ≥ 1, `irs`
is non-negative for every non-negative taxable income, and monotonically
non-decreasing in the income for fixed N. -/
theorem irs_nonneg_mono (tbl : ℤ → Option (List (ℚ × ℚ))) (minYear year : ℤ)
    (brackets : List (ℚ × ℚ))
    (hres : resolveYear tbl minYear year = some brackets)
    (hwf : wfBrackets 0 brackets) (numPeople : ℕ) (hN : 1 ≤ numPeople)
    (income1 income2 t1 t2 : ℚ) (h0 : 0 ≤ income1) (h12 : income1 ≤ income2)
    (h1 : irs tbl minYear year income1 numPeople = some t1)
    (h2 : irs tbl minYear year income2 numPeople = some t2) :
    0 ≤ t1 ∧ t1 ≤ t2 := by
  have hNpos : (0 : ℚ) < (numPeople : ℚ) := by
    exact_mod_cast Nat.lt_of_lt_of_le Nat.zero_lt_one hN
  simp only [irs, hres, Option.map_some', Option.some.injEq] at h1 h2
  subst h1
  subst h2
  have hs0 : 0 ≤ income1 / (numPeople : ℚ) := div_nonneg h0 hNpos.le
  have hsm : income1 / (numPeople : ℚ) ≤ income2 / (numPeople : ℚ) := by gcongr
  constructor
  · exact quantize2_nonneg
      (mul_nonneg hNpos.le (bracketWalk_nonneg brackets 0 _ hwf hs0))
  · exact quantize2_mono (mul_le_mul_of_nonneg_left
      (bracketWalk_mono brackets 0 _ _ hwf hs0 hsm) hNpos.le)

theorem irs_nonneg_mono_witness : (0 : ℚ) ≤ 0 ∧ (0 : ℚ) ≤ 25781/25 :=
  irs_nonneg_mono irsTable2024 2024 2024 [(7112, 29/200)]
    (by simp [resolveYear, irsTable2024])
    (by norm_num [wfBrackets]) 1 le_rfl 0 7112 0 (25781/25) le_rfl
    (by norm_num)
    (by norm_num [irs, resolveYear, irsTable2024, bracketWalk, quantize2,
      roundHalfEven])
    (by norm_num [irs, resolveYear, irsTable2024, bracketWalk, quantize2,
      roundHalfEven])

/-- Claim C8: with three length-12 monthly series and net values
`n[i] = income[i] - expenses[i] - invested[i]`, the stored cumulative value
at month k equals `n[0] + (n[0] + ... + n[k])` — the accumulator is seeded
with the first month's net and adds it again in the loop — and the stored
expenses sequence is elementwise negated. -/
theorem graph_accum_double_count (income expenses invested : List ℚ)
    (h1 : income.length = 12) (h2 : expenses.length = 12)
    (h3 : invested.length = 12) (k : ℕ) (hk : k < 12) :
    (graphAccum income expenses invested)[k]? =
      some ((graphNet income expenses invested).headI +
        ((graphNet income expenses invested).take (k + 1)).sum) ∧
    graphExpenses expenses = expenses.map fun e => -e := by
  refine ⟨?_, rfl⟩
  have hlen : (graphNet income expenses invested).length = 12 := by
    rw [graphNet, zipWith3_length _ income expenses invested (by omega)
      (by omega), h1]
  exact accumFrom_getElem _ _ k (by rw [hlen]; exact hk)

theorem graph_accum_double_count_witness :
    (graphAccum (List.replicate 12 (1 : ℚ)) (List.replicate 12 0)
        (List.replicate 12 0))[5]? =
      some ((graphNet (List.replicate 12 (1 : ℚ)) (List.replicate 12 0)
          (List.replicate 12 0)).headI +
        ((graphNet (List.replicate 12 (1 : ℚ)) (List.replicate 12 0)
            (List.replicate 12 0)).take 6).sum) :=
  (graph_accum_double_count _ _ _ (by simp) (by simp) (by simp) 5
    (by norm_num)).1

/-- Claim C9 counterexample: for income 4103.99 (below the 4104 cap) with a
one-person household and first bracket (1, 10%), the tax on the negative
base -0.01 quantizes to 0 and `net()` returns 3652.55, strictly below
`income - contribution + taxfree = 3652.5511`: the claimed lower bound fails
because of the final half-even rounding. -/
theorem net_bound_counterexample :
    Income.net irsTableSmall 2024 2024 lowIncome = some (365255/100) ∧
    lowIncome.income - lowIncome.ss + lowIncome.taxfree = 36525511/10000 ∧
    (365255/100 : ℚ) < 36525511/10000 := by
  refine ⟨?_, ?_, by norm_num⟩
  · norm_num [Income.net, Income.income, Income.ss, Income.ss_tax, Income.SS,
      lowIncome, irs, resolveYear, irsTableSmall, bracketWalk, quantize2,
      roundHalfEven]
  · norm_num [Income.income, Income.ss, Income.ss_tax, lowIncome]

/-- Claim C9 (amended): when gross income is below `4104 * n_people` (and
the resolved table's first ceiling is positive with non-negative rate),
`net()` passes the strictly negative base `income - 4104 * n_people` to
`irs`, the resulting tax is ≤ 0 (negative income is not clamped to zero: it
is taxed at the first bracket's rate, and can only fail to be strictly
negative through rounding), and `net()` is at least the 2-decimal rounding
of `income - contribution + taxfree`. -/
theorem net_lower_bound (tbl : ℤ → Option (List (ℚ × ℚ))) (minYear year : ℤ)
    (c1 r1 : ℚ) (rest : List (ℚ × ℚ))
    (hres : resolveYear tbl minYear year = some ((c1, r1) :: rest))
    (hc1 : 0 < c1) (hr1 : 0 ≤ r1) (inc : Income) (hN : 1 ≤ inc.n_people)
    (hlt : inc.income < 4104 * (inc.n_people : ℚ)) :
    inc.income - Income.SS * (inc.n_people : ℚ) < 0 ∧
    ∃ tax : ℚ,
      irs tbl minYear year (inc.income - Income.SS * (inc.n_people : ℚ))
          inc.n_people = some tax ∧
      tax ≤ 0 ∧
      Income.net tbl minYear year inc =
        some (quantize2 (inc.income - inc.ss - tax + inc.taxfree)) ∧
      quantize2 (inc.income - inc.ss + inc.taxfree) ≤
        quantize2 (inc.income - inc.ss - tax + inc.taxfree) := by
  have hSS : Income.SS = (4104 : ℚ) := rfl
  have hNpos : (0 : ℚ) < (inc.n_people : ℚ) := by
    exact_mod_cast Nat.lt_of_lt_of_le Nat.zero_lt_one hN
  have hcol : inc.income - Income.SS * (inc.n_people : ℚ) < 0 := by
    rw [hSS]; linarith
  refine ⟨hcol, ?_⟩
  have hs : (inc.income - Income.SS * (inc.n_people : ℚ)) / (inc.n_people : ℚ) < 0 :=
    div_neg_of_neg_of_pos hcol hNpos
  have hwalk : bracketWalk
      ((inc.income - Income.SS * (inc.n_people : ℚ)) / (inc.n_people : ℚ))
      ((c1, r1) :: rest) 0 =
      ((inc.income - Income.SS * (inc.n_people : ℚ)) / (inc.n_people : ℚ) - 0) * r1 := by
    rw [bracketWalk, if_neg (by linarith)]
  have htax : irs tbl minYear year
      (inc.income - Income.SS * (inc.n_people : ℚ)) inc.n_people =
      some (quantize2 ((inc.n_people : ℚ) *
        (((inc.income - Income.SS * (inc.n_people : ℚ)) / (inc.n_people : ℚ) - 0) * r1))) := by
    rw [irs, hres, Option.map_some', hwalk]
  have htle : quantize2 ((inc.n_people : ℚ) *
      (((inc.income - Income.SS * (inc.n_people : ℚ)) / (inc.n_people : ℚ) - 0) * r1)) ≤ 0 := by
    apply quantize2_nonpos
    exact mul_nonpos_iff.mpr (Or.inl ⟨hNpos.le,
      mul_nonpos_iff.mpr (Or.inr ⟨by linarith, hr1⟩)⟩)
  have hbranch : Income.SS * (inc.n_people : ℚ) > inc.ss := by
    have hssval : inc.ss = inc.income * (11/100) := rfl
    rw [hSS, hssval]
    linarith
  refine ⟨_, htax, htle, ?_, ?_⟩
  · simp only [Income.net]
    rw [if_pos hbranch, htax, Option.map_some']
  · exact quantize2_mono (by linarith)

theorem net_lower_bound_witness :
    lowIncome.income - Income.SS * (lowIncome.n_people : ℚ) < 0 ∧
    ∃ tax : ℚ,
      irs irsTableSmall 2024 2024
          (lowIncome.income - Income.SS * (lowIncome.n_people : ℚ))
          lowIncome.n_people = some tax ∧
      tax ≤ 0 ∧
      Income.net irsTableSmall 2024 2024 lowIncome =
        some (quantize2 (lowIncome.income - lowIncome.ss - tax + lowIncome.taxfree)) ∧
      quantize2 (lowIncome.income - lowIncome.ss + lowIncome.taxfree) ≤
        quantize2 (lowIncome.income - lowIncome.ss - tax + lowIncome.taxfree) :=
  net_lower_bound irsTableSmall 2024 2024 1 (1/10) []
    (by simp [resolveYear, irsTableSmall]) (by norm_num) (by norm_num)
    lowIncome (by norm_num [lowIncome])
    (by norm_num [Income.income, lowIncome])

/-- Claim C10: every value returned by `irs`, by `net()`, by `netsalary()`
(when it returns one) and every element returned by `netbonus()` is an exact
multiple of 0.01: all intermediate arithmetic is exact rational arithmetic
and a single final `quantize2` produces an integer number of cents. -/
theorem outputs_quantized (tbl : ℤ → Option (List (ℚ × ℚ))) (minYear year : ℤ)
    (salary : ℚ) (numPeople : ℕ) (inc : Income) (retention : List (ℚ × ℚ))
    (t : ℚ)
    (h : irs tbl minYear year salary numPeople = some t ∨
        Income.net tbl minYear year inc = some t ∨
        Income.netsalary retention inc = some t ∨
        t ∈ Income.netbonus retention inc) :
    ∃ k : ℤ, t = (k : ℚ) / 100 := by
  have hq : ∀ q : ℚ, ∃ k : ℤ, quantize2 q = (k : ℚ) / 100 := fun q =>
    ⟨roundHalfEven (100 * q), rfl⟩
  rcases h with h | h | h | h
  · rw [irs, Option.map_eq_some'] at h
    obtain ⟨brackets, _, hb⟩ := h
    exact hb ▸ hq _
  · simp only [Income.net, Option.map_eq_some'] at h
    obtain ⟨tax, _, hb⟩ := h
    exact hb ▸ hq _
  · clear hq
    induction retention with
    | nil => simp [Income.netsalary] at h
    | cons head rest ih =>
      obtain ⟨c, r⟩ := head
      rw [Income.netsalary] at h
      split_ifs at h with hc
      · exact (Option.some.inj h) ▸ ⟨roundHalfEven (100 * (inc.salary * (1 - Income.ss_tax - r))), rfl⟩
      · exact ih h
  · simp only [Income.netbonus, List.mem_flatMap, List.mem_map,
      List.mem_filter] at h
    obtain ⟨b, _, p, _, hp⟩ := h
    exact hp ▸ hq _

theorem outputs_quantized_witness : ∃ k : ℤ, (395 : ℚ) = (k : ℚ) / 100 :=
  outputs_quantized irsTable2024 2024 2024 0 1 bonusIncome retentionPair 395
    (Or.inr (Or.inr (Or.inr (by
      norm_num [Income.netbonus, retentionPair, bonusIncome, Income.ss_tax,
        quantize2, roundHalfEven]))))

end BudgetFuture
